import Mathlib

/-!
Shallow embedding of `orderer/common/deliver/deliver.go` (Hyperledger Fabric
orderer deliver handler) and proofs about its seek/deliver protocol.

The handler `deliverServer.Handle` runs a per-connection loop: it receives an
envelope, unmarshals payload / header / channel header, looks the channel up,
applies the signature filter, unmarshals the `SeekInfo`, resolves the stop
block number, and then drives a ledger cursor, streaming block replies
followed by a status reply.

External collaborators (protobuf unmarshalling, the chain registry, the policy
engine, the ledger reader and its cursor) are modelled at their interface
boundary: unmarshal outcomes become `Option` fields, the signature filter
becomes a function from envelopes to filter actions, and a cursor becomes the
list of events the deliver loop would observe from it (each loop iteration
either finds the cursor not ready, or pulls a block together with a status).
A finite event list models a finite observation window: running out of events
while a blocking wait is in progress is reported as `LoopResult.blocked`,
which stands for indefinite suspension.
-/

/-- `cb.Status` (protos/common): the status codes used by the handler. -/
inductive Status where
  | UNKNOWN
  | SUCCESS
  | BAD_REQUEST
  | FORBIDDEN
  | NOT_FOUND
  | INTERNAL_SERVER_ERROR
  | SERVICE_UNAVAILABLE
  deriving DecidableEq, Repr

/-- `filter.Action` (orderer/common/filter): outcome of the signature filter.
The handler only distinguishes `forward` from everything else. (Named
`FilterAction` here because `Action` is taken by the ambient library.) -/
inductive FilterAction where
  | accept
  | reject
  | forward
  deriving DecidableEq, Repr

/-- `ab.SeekInfo_SeekBehavior`. -/
inductive SeekBehavior where
  | BLOCK_UNTIL_READY
  | FAIL_IF_NOT_READY
  deriving DecidableEq, Repr

/-- The inhabited cases of the `ab.SeekPosition.Type` oneof. -/
inductive SeekPositionType where
  | oldest
  | newest
  | specified (number : Nat)
  deriving DecidableEq, Repr

/-- `ab.SeekPosition`: a protobuf oneof; `none` models an unset oneof
(`Type` is a nil interface in Go). -/
structure SeekPosition where
  type? : Option SeekPositionType
  deriving DecidableEq, Repr

/-- `ab.SeekInfo`. `start`/`stop` are `nil`-able pointers in Go. -/
structure SeekInfo where
  start : Option SeekPosition
  stop : Option SeekPosition
  behavior : SeekBehavior
  deriving DecidableEq, Repr

/-- `cb.BlockHeader`: only the `Number` field is inspected by the handler. -/
structure BlockHeader where
  number : Nat
  deriving DecidableEq, Repr

/-- `cb.Block`: the handler treats blocks opaquely except for `Header.Number`. -/
structure Block where
  header : BlockHeader
  deriving DecidableEq, Repr

/-- `cb.ChannelHeader`: the handler reads only `ChannelId`. -/
structure ChannelHeader where
  channelId : String
  deriving DecidableEq, Repr

/-- `cb.Header`: `channelHeader?` is the result of
`utils.UnmarshalChannelHeader(payload.Header.ChannelHeader)`;
`none` models an unmarshal failure. -/
structure Header where
  channelHeader? : Option ChannelHeader
  deriving DecidableEq, Repr

/-- `cb.Payload` as seen by the handler: `header?` is the (nil-able) `Header`
pointer, and `data?` is the result of `proto.Unmarshal(payload.Data, seekInfo)`
(`none` models a malformed `SeekInfo` payload). -/
structure Payload where
  header? : Option Header
  data? : Option SeekInfo
  deriving DecidableEq, Repr

/-- `cb.Envelope` as seen by the handler: `payload?` is the result of
`utils.UnmarshalPayload(envelope.Payload)` (`none` models a payload that fails
to unmarshal). -/
structure Envelope where
  payload? : Option Payload
  deriving DecidableEq, Repr

/-- One observable cursor event per deliver-loop iteration: either the
readiness channel has nothing available right now (`notReady`), or a block is
ready and `cursor.Next()` returns `(b, st)` (`yields b st`). -/
inductive CursorStep where
  | notReady
  | yields (b : Block) (st : Status)
  deriving DecidableEq, Repr

/-- A `DeliverResponse`: the `Type` oneof is either a block reply
(`sendBlockReply`) or a status reply (`sendStatusReply`). -/
inductive Response where
  | block (b : Block)
  | status (s : Status)
  deriving DecidableEq, Repr

/-- `deliver.Support` together with the reader interface it exposes:
`apply` is `sigfilter.New(policies.ChannelReaders, chain.PolicyManager()).Apply`,
`iterator` is `chain.Reader().Iterator` (returning the cursor's event stream
and the starting block number), and `height` is `chain.Reader().Height()`. -/
structure Chain where
  apply : Envelope → FilterAction
  iterator : SeekPosition → List CursorStep × Nat
  height : Nat

/-- `SupportManager.GetChain`, as a map from channel ids to chains (`none`
models a lookup miss). -/
abbrev SupportManager := String → Option Chain

/-- Outcome of servicing one received envelope. `sessionEnd rs` means `Handle`
returns after sending `rs` (the session terminates); `requestDone rs` means
`rs` was sent and the loop goes back to `srv.Recv()`; `blocked rs` means `rs`
was sent and the loop is suspended waiting on `cursor.ReadyChan()` with no
further cursor events in the observation window. -/
inductive LoopResult where
  | sessionEnd (rs : List Response)
  | requestDone (rs : List Response)
  | blocked (rs : List Response)
  deriving DecidableEq, Repr

/-- Prepend an already-sent response to a loop outcome. -/
def LoopResult.push (r : Response) : LoopResult → LoopResult
  | .sessionEnd rs => .sessionEnd (r :: rs)
  | .requestDone rs => .requestDone (r :: rs)
  | .blocked rs => .blocked (r :: rs)

/-- `2 ^ 64`: block numbers and ledger heights are Go `uint64` values. -/
def U64 : Nat := 2 ^ 64

/-- deliver.go lines 127-139: resolve the stop block number from the
`SeekInfo.Stop` position, given the iterator-returned start `number` and the
reader's `height`. `none` models the `BAD_REQUEST` return for a `Specified`
stop below the start number. The Go code declares `var stopNum uint64` and
switches on the oneof with no default case, so an unset oneof leaves
`stopNum = 0`; `Height() - 1` is computed in `uint64` arithmetic, hence the
explicit wrap-around modulo `2 ^ 64`. -/
def resolveStop (stop : SeekPosition) (number : Nat) (height : Nat) : Option Nat :=
  match stop.type? with
  | some .oldest => some number
  | some .newest => some ((height + (U64 - 1)) % U64)
  | some (.specified n) => if n < number then none else some n
  | none => some 0

/-- deliver.go lines 141-173: the cursor loop. Per iteration: under
`BLOCK_UNTIL_READY` the loop waits on `cursor.ReadyChan()` (a `notReady`
event is waited through), under `FAIL_IF_NOT_READY` a not-ready cursor makes
the handler return after a `NOT_FOUND` status reply. Once ready,
`cursor.Next()` yields `(block, status)`: a non-`SUCCESS` status is sent and
ends the session; otherwise the block is sent, and the loop breaks when
`stopNum == block.Header.Number`, after which a `SUCCESS` status reply is
sent and the handler returns to receiving. Send errors are not modelled
(sends always succeed). -/
def deliverLoop (behavior : SeekBehavior) (stopNum : Nat) :
    List CursorStep → LoopResult
  | [] =>
    match behavior with
    | .BLOCK_UNTIL_READY => .blocked []
    | .FAIL_IF_NOT_READY => .sessionEnd [.status .NOT_FOUND]
  | .notReady :: rest =>
    match behavior with
    | .BLOCK_UNTIL_READY => deliverLoop behavior stopNum rest
    | .FAIL_IF_NOT_READY => .sessionEnd [.status .NOT_FOUND]
  | .yields b st :: rest =>
    if st = .SUCCESS then
      if stopNum = b.header.number then
        .requestDone [.block b, .status .SUCCESS]
      else
        (deliverLoop behavior stopNum rest).push (.block b)
    else
      .sessionEnd [.status st]

/-- deliver.go lines 81-173: servicing of one received envelope, from payload
unmarshalling through the cursor loop. Every `return sendStatusReply(...)` in
the Go code becomes a `sessionEnd`. -/
def handleEnvelope (sm : SupportManager) (envelope : Envelope) : LoopResult :=
  match envelope.payload? with
  | none => .sessionEnd [.status .BAD_REQUEST]
  | some payload =>
    match payload.header? with
    | none => .sessionEnd [.status .BAD_REQUEST]
    | some header =>
      match header.channelHeader? with
      | none => .sessionEnd [.status .BAD_REQUEST]
      | some chdr =>
        match sm chdr.channelId with
        | none => .sessionEnd [.status .NOT_FOUND]
        | some chain =>
          if chain.apply envelope = .forward then
            match payload.data? with
            | none => .sessionEnd [.status .BAD_REQUEST]
            | some seekInfo =>
              match seekInfo.start, seekInfo.stop with
              | none, _ => .sessionEnd [.status .BAD_REQUEST]
              | some _, none => .sessionEnd [.status .BAD_REQUEST]
              | some start, some stop =>
                match resolveStop stop (chain.iterator start).2 chain.height with
                | none => .sessionEnd [.status .BAD_REQUEST]
                | some stopNum =>
                  deliverLoop seekInfo.behavior stopNum (chain.iterator start).1
          else
            .sessionEnd [.status .FORBIDDEN]

/-- One `srv.Recv()` outcome: clean end of stream (`io.EOF`), a transport
error, or an envelope. -/
inductive RecvEvent where
  | eof
  | recvError
  | msg (envelope : Envelope)
  deriving DecidableEq, Repr

/-- How a session run over a finite event window ended. `terminated`: `Handle`
returned after an error-path status reply; `suspended`: the window ended while
the handler was waiting (on `Recv` or on the cursor). -/
inductive SessionOutcome where
  | cleanClose
  | transportError
  | terminated
  | suspended
  deriving DecidableEq, Repr

/-- deliver.go lines 66-177: `deliverServer.Handle`, run over a finite window
of receive events. Returns all responses sent on the stream, and how the
session ended within the window. -/
def Handle (sm : SupportManager) : List RecvEvent → List Response × SessionOutcome
  | [] => ([], .suspended)
  | .eof :: _ => ([], .cleanClose)
  | .recvError :: _ => ([], .transportError)
  | .msg envelope :: rest =>
    match handleEnvelope sm envelope with
    | .sessionEnd rs => (rs, .terminated)
    | .blocked rs => (rs, .suspended)
    | .requestDone rs =>
      let p := Handle sm rest
      (rs ++ p.1, p.2)

/-- Modelled from the spec: the start number returned by the ledger reader's
`iterator(seekPosition)` (the ledger reader itself is not under the sources;
per the spec, `Oldest` resolves to the lowest retained block number, `Newest`
resolves to `height − 1`, and `Specified` carries an explicit block number). -/
def specStartNumber (oldest height : Nat) : SeekPositionType → Nat
  | .oldest => oldest
  | .newest => (height + (U64 - 1)) % U64
  | .specified n => n

/-- `true` iff a read of `cursor.ReadyChan()` would not complete right now:
either the observation window is empty or the next event is `notReady`. -/
def notReadyNow : List CursorStep → Bool
  | [] => true
  | .notReady :: _ => true
  | .yields _ _ :: _ => false

/-- `true` iff every event in the window is a ready cursor yielding a block
with `SUCCESS` (the cursor never blocks and never reports a fault). -/
def allReadySuccess : List CursorStep → Bool
  | [] => true
  | .notReady :: _ => false
  | .yields _ st :: rest => (st = .SUCCESS) && allReadySuccess rest

/-- `true` iff some event in the window yields a block whose header number is
exactly `stop`. -/
def hasStopBlock (stop : Nat) : List CursorStep → Bool
  | [] => false
  | .notReady :: rest => hasStopBlock stop rest
  | .yields b _ :: rest => (b.header.number = stop) || hasStopBlock stop rest

/-- A window of `k` ready cursor events yielding consecutive successful blocks
numbered `s, s + 1, ..., s + k - 1`. -/
def yieldsFrom : Nat → Nat → List CursorStep
  | _, 0 => []
  | s, k + 1 => .yields ⟨⟨s⟩⟩ .SUCCESS :: yieldsFrom (s + 1) k

/-! ### Concrete test fixtures -/

/-- A block with header number `n`. -/
def blk (n : Nat) : Block := ⟨⟨n⟩⟩

/-- A seek position with the `Oldest` tag set. -/
def seekOldest : SeekPosition := ⟨some .oldest⟩

/-- A `SeekInfo` with both positions present. -/
def mkSeekInfo (a b : SeekPosition) (beh : SeekBehavior) : SeekInfo :=
  ⟨some a, some b, beh⟩

/-- An envelope whose payload and channel header unmarshal cleanly, addressed
to channel `ch`, with `SeekInfo` unmarshal outcome `d`. -/
def mkEnvelope (ch : String) (d : Option SeekInfo) : Envelope :=
  ⟨some ⟨some ⟨some ⟨ch⟩⟩, d⟩⟩

/-- An empty chain: all requests authorized, no blocks, height 0, cursor
never ready. -/
def chainEmpty : Chain := ⟨fun _ => .forward, fun _ => ([], 0), 0⟩

/-- A chain whose signature filter rejects every envelope. -/
def chainDeny : Chain := ⟨fun _ => .reject, fun _ => ([], 0), 0⟩

/-- A chain holding a single block numbered 0 (height 1); its cursor is ready
once and yields that block with `SUCCESS`. -/
def chainOne : Chain := ⟨fun _ => .forward, fun _ => ([.yields (blk 0) .SUCCESS], 0), 1⟩

/-- A chain of height 10 whose oldest retained block is number 0; iterator
start numbers follow the spec-modelled resolution, and the cursor yields
nothing within the window. -/
def chainFuture : Chain :=
  ⟨fun _ => .forward,
   fun p => ([], specStartNumber 0 10 (p.type?.getD .oldest)), 10⟩

/-- A support manager with the four test chains registered. -/
def smTest : SupportManager := fun ch =>
  if ch = "empty" then some chainEmpty
  else if ch = "deny" then some chainDeny
  else if ch = "one" then some chainOne
  else if ch = "future" then some chainFuture
  else none

/-- Well-formed, authorized, `FAIL_IF_NOT_READY` request on the empty chain. -/
def envNotReady : Envelope :=
  mkEnvelope "empty" (some (mkSeekInfo seekOldest seekOldest .FAIL_IF_NOT_READY))

/-- Envelope on the empty chain whose `SeekInfo` payload fails to unmarshal. -/
def envBadSeek : Envelope := mkEnvelope "empty" none

/-- Envelope on the denying chain whose `SeekInfo` payload fails to
unmarshal: malformed and unauthorized at once. -/
def envDenyBadSeek : Envelope := mkEnvelope "deny" none

/-- Well-formed request on the denying chain. -/
def envDenyOk : Envelope :=
  mkEnvelope "deny" (some (mkSeekInfo seekOldest seekOldest .BLOCK_UNTIL_READY))

/-- Well-formed request for the single block of `chainOne`. -/
def envOne : Envelope :=
  mkEnvelope "one" (some (mkSeekInfo seekOldest seekOldest .BLOCK_UNTIL_READY))

/-- Request on `chainFuture` starting at block 7 with stop number 999, far
beyond the chain height of 10. -/
def envFuture : Envelope :=
  mkEnvelope "future"
    (some (mkSeekInfo ⟨some (.specified 7)⟩ ⟨some (.specified 999)⟩ .BLOCK_UNTIL_READY))

/-- Request on `chainFuture` with stop number 3 below its start number 7. -/
def envBackwards : Envelope :=
  mkEnvelope "future"
    (some (mkSeekInfo ⟨some (.specified 7)⟩ ⟨some (.specified 3)⟩ .BLOCK_UNTIL_READY))

/-- Request on `chainOne` whose stop position has an unset oneof tag. -/
def envNoStopType : Envelope :=
  mkEnvelope "one" (some (mkSeekInfo seekOldest ⟨none⟩ .BLOCK_UNTIL_READY))

/-! ### Helper lemmas -/

/-- Under `FAIL_IF_NOT_READY`, a not-ready cursor makes the loop return a
lone `NOT_FOUND` status reply at once. -/
theorem deliverLoop_fail_not_ready (stopNum : Nat) (cur : List CursorStep)
    (h : notReadyNow cur = true) :
    deliverLoop .FAIL_IF_NOT_READY stopNum cur = .sessionEnd [.status .NOT_FOUND] := by
  match cur with
  | [] => rfl
  | .notReady :: _ => rfl
  | .yields _ _ :: _ => simp [notReadyNow] at h

/-- A `sessionEnd` outcome for the first envelope terminates the session:
later receive events are never serviced. -/
theorem Handle_sessionEnd (sm : SupportManager) (envelope : Envelope)
    (rs : List Response) (rest : List RecvEvent)
    (h : handleEnvelope sm envelope = .sessionEnd rs) :
    Handle sm (.msg envelope :: rest) = (rs, .terminated) := by
  simp [Handle, h]

/-- A `requestDone` outcome prepends its responses and hands control back to
the receive step for the remaining events. -/
theorem Handle_requestDone (sm : SupportManager) (envelope : Envelope)
    (rs : List Response) (rest : List RecvEvent)
    (h : handleEnvelope sm envelope = .requestDone rs) :
    Handle sm (.msg envelope :: rest) = (rs ++ (Handle sm rest).1, (Handle sm rest).2) := by
  simp [Handle, h]

/-- Inversion for `LoopResult.push` landing in `requestDone`. -/
theorem push_eq_requestDone {r : Response} {x : LoopResult} {rs : List Response}
    (h : x.push r = .requestDone rs) :
    ∃ t, x = .requestDone t ∧ rs = r :: t := by
  cases x with
  | sessionEnd t => simp [LoopResult.push] at h
  | requestDone t =>
    refine ⟨t, rfl, ?_⟩
    simpa [LoopResult.push] using h.symm
  | blocked t => simp [LoopResult.push] at h

/-- Inversion for `LoopResult.push` landing in `sessionEnd`. -/
theorem push_eq_sessionEnd {r : Response} {x : LoopResult} {rs : List Response}
    (h : x.push r = .sessionEnd rs) :
    ∃ t, x = .sessionEnd t ∧ rs = r :: t := by
  cases x with
  | sessionEnd t =>
    refine ⟨t, rfl, ?_⟩
    simpa [LoopResult.push] using h.symm
  | requestDone t => simp [LoopResult.push] at h
  | blocked t => simp [LoopResult.push] at h

/-- A `requestDone` outcome always ends with the block whose header number is
exactly the stop number, followed by the final `SUCCESS` status. -/
theorem requestDone_ends_at_stop (beh : SeekBehavior) (stop : Nat) :
    ∀ cur rs, deliverLoop beh stop cur = .requestDone rs →
      ∃ pre b, rs = pre ++ [.block b, .status .SUCCESS] ∧ b.header.number = stop := by
  intro cur
  induction cur with
  | nil =>
    intro rs h
    cases beh <;> simp [deliverLoop] at h
  | cons head rest ih =>
    intro rs h
    cases head with
    | notReady =>
      cases beh with
      | BLOCK_UNTIL_READY =>
        simp only [deliverLoop] at h
        exact ih rs h
      | FAIL_IF_NOT_READY => simp [deliverLoop] at h
    | yields b st =>
      by_cases hst : st = Status.SUCCESS
      · subst hst
        by_cases hstop : stop = b.header.number
        · simp only [deliverLoop, if_pos rfl, if_pos hstop] at h
          obtain rfl : [Response.block b, Response.status .SUCCESS] = rs := by
            simpa using h
          exact ⟨[], b, by simp, hstop.symm⟩
        · simp only [deliverLoop, if_pos rfl, if_neg hstop] at h
          obtain ⟨t, hx, hrs⟩ := push_eq_requestDone h
          obtain ⟨pre, b', ht, hb⟩ := ih t hx
          exact ⟨.block b :: pre, b', by simp [hrs, ht], hb⟩
      · simp [deliverLoop, hst] at h

/-- Every finished request's response list is zero or more block replies
followed by exactly one status reply. -/
theorem deliverLoop_shape (beh : SeekBehavior) (stop : Nat) :
    ∀ cur rs,
      deliverLoop beh stop cur = .sessionEnd rs ∨
        deliverLoop beh stop cur = .requestDone rs →
      ∃ (bs : List Block) (st : Status),
        rs = bs.map Response.block ++ [Response.status st] := by
  intro cur
  induction cur with
  | nil =>
    intro rs h
    cases beh with
    | BLOCK_UNTIL_READY => simp [deliverLoop] at h
    | FAIL_IF_NOT_READY =>
      rcases h with h | h
      · injection h with h'
        exact ⟨[], .NOT_FOUND, by simp [← h']⟩
      · simp [deliverLoop] at h
  | cons head rest ih =>
    intro rs h
    cases head with
    | notReady =>
      cases beh with
      | BLOCK_UNTIL_READY =>
        simp only [deliverLoop] at h
        exact ih rs h
      | FAIL_IF_NOT_READY =>
        rcases h with h | h
        · injection h with h'
          exact ⟨[], .NOT_FOUND, by simp [← h']⟩
        · simp [deliverLoop] at h
    | yields b st =>
      by_cases hst : st = Status.SUCCESS
      · subst hst
        by_cases hstop : stop = b.header.number
        · have hred : deliverLoop beh stop (CursorStep.yields b Status.SUCCESS :: rest) =
              .requestDone [.block b, .status .SUCCESS] := by
            simp [deliverLoop, hstop]
          rcases h with h | h
          · rw [hred] at h
            simp at h
          · rw [hred] at h
            injection h with h'
            exact ⟨[b], .SUCCESS, by simp [← h']⟩
        · rcases h with h | h <;> simp only [deliverLoop, if_pos rfl, if_neg hstop] at h
          · obtain ⟨t, hx, hrs⟩ := push_eq_sessionEnd h
            obtain ⟨bs, st', ht⟩ := ih t (Or.inl hx)
            exact ⟨b :: bs, st', by simp [hrs, ht]⟩
          · obtain ⟨t, hx, hrs⟩ := push_eq_requestDone h
            obtain ⟨bs, st', ht⟩ := ih t (Or.inr hx)
            exact ⟨b :: bs, st', by simp [hrs, ht]⟩
      · rcases h with h | h <;> simp only [deliverLoop, if_neg hst] at h
        · obtain rfl : [Response.status st] = rs := by simpa using h
          exact ⟨[], st, by simp⟩
        · simp at h

/-- Over a window of consecutive successful blocks starting at `s`, the loop
delivers blocks `s, s + 1, ..., s + j` in order and finishes with `SUCCESS`
when the stop number is `s + j`. -/
theorem deliverLoop_consecutive :
    ∀ j s k (beh : SeekBehavior), j < k →
      deliverLoop beh (s + j) (yieldsFrom s k) =
        .requestDone ((List.range (j + 1)).map (fun i => Response.block (blk (s + i))) ++
          [Response.status .SUCCESS]) := by
  intro j
  induction j with
  | zero =>
    intro s k beh hk
    match k, hk with
    | k' + 1, _ => simp [yieldsFrom, deliverLoop, blk, List.range_succ]
  | succ j ih =>
    intro s k beh hk
    match k, hk with
    | k' + 1, hk =>
      have hne : ¬ (s + (j + 1) = s) := by omega
      have h2 : s + (j + 1) = (s + 1) + j := by omega
      have hstep : deliverLoop beh (s + (j + 1)) (yieldsFrom s (k' + 1)) =
          (deliverLoop beh (s + (j + 1)) (yieldsFrom (s + 1) k')).push
            (.block (blk s)) := by
        simp [yieldsFrom, deliverLoop, hne, blk]
      rw [hstep, h2, ih (s + 1) k' beh (by omega)]
      simp only [LoopResult.push]
      congr 1
      have key : (List.range (j + 1 + 1)).map (fun i => Response.block (blk (s + i))) =
          Response.block (blk s) ::
            (List.range (j + 1)).map (fun i => Response.block (blk (s + 1 + i))) := by
        rw [List.range_succ_eq_map, List.map_cons, List.map_map]
        congr 1
        apply List.map_congr_left
        intro i _
        simp only [Function.comp_apply, Nat.succ_eq_add_one]
        have h4 : s + (i + 1) = s + 1 + i := by omega
        rw [h4]
      rw [key]
      simp

/-- For a well-formed, channel-resolved, authorized envelope, the handler's
behaviour reduces to stop-number resolution followed by the cursor loop. -/
theorem handleEnvelope_resolved (sm : SupportManager) (envelope : Envelope)
    (payload : Payload) (header : Header) (chdr : ChannelHeader) (chain : Chain)
    (si : SeekInfo) (start stop : SeekPosition)
    (hp : envelope.payload? = some payload) (hh : payload.header? = some header)
    (hc : header.channelHeader? = some chdr) (hm : sm chdr.channelId = some chain)
    (ha : chain.apply envelope = .forward) (hd : payload.data? = some si)
    (hstart : si.start = some start) (hstop : si.stop = some stop) :
    handleEnvelope sm envelope =
      match resolveStop stop (chain.iterator start).2 chain.height with
      | none => .sessionEnd [.status .BAD_REQUEST]
      | some stopNum => deliverLoop si.behavior stopNum (chain.iterator start).1 := by
  simp [handleEnvelope, hp, hh, hc, hm, ha, hd, hstart, hstop]

/-! ### C1 -/

/-- C1 counterexample: a well-formed, authorized `FAIL_IF_NOT_READY` request
with no block ready gets `NOT_FOUND`, but the handler returns: the session is
NOT open afterwards — a subsequent malformed SeekInfo that would draw a
`BAD_REQUEST` on its own is never serviced after the `NOT_FOUND`. -/
theorem not_found_closes_session_cex :
    Handle smTest [.msg envNotReady, .msg envBadSeek] =
      ([.status .NOT_FOUND], .terminated) ∧
    Handle smTest [.msg envBadSeek] = ([.status .BAD_REQUEST], .terminated) := by
  constructor <;> rfl

/-- C1 (amended): for every well-formed, authorized seek request with
behavior `FAIL_IF_NOT_READY`, if no block is ready at the current cursor
position, the handler sends a `NOT_FOUND` status for that request without
blocking and then terminates the whole session: no subsequent SeekInfo is
received or serviced on that connection. -/
theorem fail_if_not_ready_not_found_terminates
    (sm : SupportManager) (envelope : Envelope) (payload : Payload)
    (header : Header) (chdr : ChannelHeader) (chain : Chain) (si : SeekInfo)
    (start stop : SeekPosition) (stopNum : Nat)
    (hp : envelope.payload? = some payload) (hh : payload.header? = some header)
    (hc : header.channelHeader? = some chdr) (hm : sm chdr.channelId = some chain)
    (ha : chain.apply envelope = .forward) (hd : payload.data? = some si)
    (hstart : si.start = some start) (hstop : si.stop = some stop)
    (hbeh : si.behavior = .FAIL_IF_NOT_READY)
    (hres : resolveStop stop (chain.iterator start).2 chain.height = some stopNum)
    (hnr : notReadyNow (chain.iterator start).1 = true) :
    handleEnvelope sm envelope = .sessionEnd [.status .NOT_FOUND] ∧
    ∀ rest, Handle sm (.msg envelope :: rest) = ([.status .NOT_FOUND], .terminated) := by
  have h := handleEnvelope_resolved sm envelope payload header chdr chain si start stop
    hp hh hc hm ha hd hstart hstop
  rw [hres] at h
  simp only [] at h
  rw [hbeh, deliverLoop_fail_not_ready stopNum _ hnr] at h
  exact ⟨h, fun rest => Handle_sessionEnd sm envelope _ rest h⟩

/-- C1 witness: the amended statement at the concrete fixture. -/
theorem fail_if_not_ready_not_found_terminates_witness :
    handleEnvelope smTest envNotReady = .sessionEnd [.status .NOT_FOUND] ∧
    Handle smTest [.msg envNotReady, .msg envBadSeek] =
      ([.status .NOT_FOUND], .terminated) := by
  have h := fail_if_not_ready_not_found_terminates smTest envNotReady
    ⟨some ⟨some ⟨"empty"⟩⟩, some (mkSeekInfo seekOldest seekOldest .FAIL_IF_NOT_READY)⟩
    ⟨some ⟨"empty"⟩⟩ ⟨"empty"⟩ chainEmpty
    (mkSeekInfo seekOldest seekOldest .FAIL_IF_NOT_READY) seekOldest seekOldest 0
    rfl rfl rfl (by simp [smTest]) rfl rfl rfl rfl rfl rfl rfl
  exact ⟨h.1, h.2 [.msg envBadSeek]⟩

/-! ### C2 -/

/-- C2 counterexample: an envelope whose `SeekInfo` payload fails to
unmarshal (malformed, per the claim) but whose signature-policy evaluation is
not `Forward` draws `FORBIDDEN`, not `BAD_REQUEST`: the authorization check
at lines 106-111 runs before the `SeekInfo` unmarshal at lines 113-117. -/
theorem malformed_but_denied_cex :
    envDenyBadSeek.payload? = some ⟨some ⟨some ⟨"deny"⟩⟩, none⟩ ∧
    handleEnvelope smTest envDenyBadSeek = .sessionEnd [.status .FORBIDDEN] ∧
    Status.FORBIDDEN ≠ Status.BAD_REQUEST := by
  refine ⟨rfl, rfl, by decide⟩

/-- C2 (amended): malformations detected before channel lookup (payload that
fails to unmarshal, absent header, unparsable channel header) always draw
exactly one `BAD_REQUEST` and terminate the session; the SeekInfo-level
malformations (unparsable `SeekInfo` payload, missing start or stop position)
draw exactly one `BAD_REQUEST` and terminate the session provided the channel
is found and authorization yields `Forward` — otherwise the earlier
`NOT_FOUND` or `FORBIDDEN` takes precedence. In every `BAD_REQUEST` case no
block response is sent and the session ends. -/
theorem malformed_bad_request_terminates :
    (∀ (sm : SupportManager) (envelope : Envelope), envelope.payload? = none →
        handleEnvelope sm envelope = .sessionEnd [.status .BAD_REQUEST]) ∧
    (∀ (sm : SupportManager) (envelope : Envelope) (payload : Payload),
        envelope.payload? = some payload → payload.header? = none →
        handleEnvelope sm envelope = .sessionEnd [.status .BAD_REQUEST]) ∧
    (∀ (sm : SupportManager) (envelope : Envelope) (payload : Payload)
        (header : Header),
        envelope.payload? = some payload → payload.header? = some header →
        header.channelHeader? = none →
        handleEnvelope sm envelope = .sessionEnd [.status .BAD_REQUEST]) ∧
    (∀ (sm : SupportManager) (envelope : Envelope) (payload : Payload)
        (header : Header) (chdr : ChannelHeader) (chain : Chain),
        envelope.payload? = some payload → payload.header? = some header →
        header.channelHeader? = some chdr → sm chdr.channelId = some chain →
        chain.apply envelope = .forward → payload.data? = none →
        handleEnvelope sm envelope = .sessionEnd [.status .BAD_REQUEST]) ∧
    (∀ (sm : SupportManager) (envelope : Envelope) (payload : Payload)
        (header : Header) (chdr : ChannelHeader) (chain : Chain) (si : SeekInfo),
        envelope.payload? = some payload → payload.header? = some header →
        header.channelHeader? = some chdr → sm chdr.channelId = some chain →
        chain.apply envelope = .forward → payload.data? = some si →
        si.start = none ∨ si.stop = none →
        handleEnvelope sm envelope = .sessionEnd [.status .BAD_REQUEST]) ∧
    (∀ (sm : SupportManager) (envelope : Envelope) (rs : List Response)
        (rest : List RecvEvent),
        handleEnvelope sm envelope = .sessionEnd rs →
        Handle sm (.msg envelope :: rest) = (rs, .terminated)) := by
  refine ⟨?_, ?_, ?_, ?_, ?_, ?_⟩
  · intro sm envelope h
    simp [handleEnvelope, h]
  · intro sm envelope payload hp hh
    simp [handleEnvelope, hp, hh]
  · intro sm envelope payload header hp hh hc
    simp [handleEnvelope, hp, hh, hc]
  · intro sm envelope payload header chdr chain hp hh hc hm ha hd
    simp [handleEnvelope, hp, hh, hc, hm, ha, hd]
  · intro sm envelope payload header chdr chain si hp hh hc hm ha hd hss
    rcases hss with hs | hs
    · simp [handleEnvelope, hp, hh, hc, hm, ha, hd, hs]
    · cases hstart : si.start with
      | none => simp [handleEnvelope, hp, hh, hc, hm, ha, hd, hstart]
      | some s => simp [handleEnvelope, hp, hh, hc, hm, ha, hd, hstart, hs]
  · intro sm envelope rs rest h
    exact Handle_sessionEnd sm envelope rs rest h

/-- C2 witness: the first conjunct at an envelope whose payload fails to
unmarshal, and the fifth at an envelope missing its stop position. -/
theorem malformed_bad_request_terminates_witness :
    handleEnvelope smTest ⟨none⟩ = .sessionEnd [.status .BAD_REQUEST] ∧
    handleEnvelope smTest (mkEnvelope "empty" (some ⟨some seekOldest, none, .BLOCK_UNTIL_READY⟩)) =
      .sessionEnd [.status .BAD_REQUEST] := by
  refine ⟨malformed_bad_request_terminates.1 smTest ⟨none⟩ rfl, ?_⟩
  exact malformed_bad_request_terminates.2.2.2.2.1 smTest
    (mkEnvelope "empty" (some ⟨some seekOldest, none, .BLOCK_UNTIL_READY⟩))
    ⟨some ⟨some ⟨"empty"⟩⟩, some ⟨some seekOldest, none, .BLOCK_UNTIL_READY⟩⟩
    ⟨some ⟨"empty"⟩⟩ ⟨"empty"⟩ chainEmpty ⟨some seekOldest, none, .BLOCK_UNTIL_READY⟩
    rfl rfl rfl (by simp [smTest]) rfl rfl (Or.inr rfl)

/-! ### C6 -/

/-- C6: for every well-formed request whose signature-policy evaluation
yields any result other than `Forward`, the handler sends a `FORBIDDEN`
status and terminates the session, with zero block responses sent for that
request. -/
theorem non_forward_forbidden_terminates
    (sm : SupportManager) (envelope : Envelope) (payload : Payload)
    (header : Header) (chdr : ChannelHeader) (chain : Chain)
    (hp : envelope.payload? = some payload) (hh : payload.header? = some header)
    (hc : header.channelHeader? = some chdr) (hm : sm chdr.channelId = some chain)
    (ha : chain.apply envelope ≠ .forward) :
    handleEnvelope sm envelope = .sessionEnd [.status .FORBIDDEN] ∧
    ∀ rest, Handle sm (.msg envelope :: rest) = ([.status .FORBIDDEN], .terminated) := by
  have h : handleEnvelope sm envelope = .sessionEnd [.status .FORBIDDEN] := by
    simp [handleEnvelope, hp, hh, hc, hm, ha]
  exact ⟨h, fun rest => Handle_sessionEnd sm envelope _ rest h⟩

/-- C6 witness: the denying chain draws `FORBIDDEN` for a fully well-formed
request, and the session terminates. -/
theorem non_forward_forbidden_terminates_witness :
    handleEnvelope smTest envDenyOk = .sessionEnd [.status .FORBIDDEN] ∧
    Handle smTest [.msg envDenyOk, .eof] = ([.status .FORBIDDEN], .terminated) := by
  have h := non_forward_forbidden_terminates smTest envDenyOk
    ⟨some ⟨some ⟨"deny"⟩⟩, some (mkSeekInfo seekOldest seekOldest .BLOCK_UNTIL_READY)⟩
    ⟨some ⟨"deny"⟩⟩ ⟨"deny"⟩ chainDeny
    rfl rfl rfl (by simp [smTest]) (by decide)
  exact ⟨h.1, h.2 [.eof]⟩

/-! ### C3 -/

/-- C3 counterexample: a ledger whose oldest retained block is number 0, at
height 10, with a seek starting at `Specified(7)` (the iterator-returned
start number is 7) and stopping at `Oldest`: the switch sets the stop number
to the start number 7, not to the oldest retained bound 0. -/
theorem stop_oldest_is_start_number_cex :
    specStartNumber 0 10 SeekPositionType.oldest = 0 ∧
    resolveStop ⟨some .oldest⟩ (specStartNumber 0 10 (.specified 7)) 10 = some 7 ∧
    (7 : Nat) ≠ 0 := by
  refine ⟨rfl, rfl, by decide⟩

/-- C3 (amended): for every well-formed, authorized seek request, the
resolved stop number is computed by case on the stop position's tag: `Oldest`
yields the start number returned by opening the ledger iterator at the start
position (not, in general, the oldest retained bound), `Newest` yields
`height − 1` in `uint64` arithmetic, and `Specified(n)` yields `n` whenever
`n` is at least the start number, with no upper-bound check against the
current height (a future block number is accepted and the cursor loop runs
with it). -/
theorem stop_resolution
    (sm : SupportManager) (envelope : Envelope) (payload : Payload)
    (header : Header) (chdr : ChannelHeader) (chain : Chain) (si : SeekInfo)
    (start stop : SeekPosition) (events : List CursorStep) (number : Nat)
    (hp : envelope.payload? = some payload) (hh : payload.header? = some header)
    (hc : header.channelHeader? = some chdr) (hm : sm chdr.channelId = some chain)
    (ha : chain.apply envelope = .forward) (hd : payload.data? = some si)
    (hstart : si.start = some start) (hstop : si.stop = some stop)
    (hiter : chain.iterator start = (events, number)) :
    (stop.type? = some .oldest →
      handleEnvelope sm envelope = deliverLoop si.behavior number events) ∧
    (stop.type? = some .newest →
      handleEnvelope sm envelope =
        deliverLoop si.behavior ((chain.height + (U64 - 1)) % U64) events) ∧
    (∀ n, stop.type? = some (.specified n) → number ≤ n →
      handleEnvelope sm envelope = deliverLoop si.behavior n events) := by
  have h := handleEnvelope_resolved sm envelope payload header chdr chain si start stop
    hp hh hc hm ha hd hstart hstop
  rw [hiter] at h
  refine ⟨?_, ?_, ?_⟩
  · intro ht
    rw [h]
    simp [resolveStop, ht]
  · intro ht
    rw [h]
    simp [resolveStop, ht]
  · intro n ht hle
    rw [h]
    simp [resolveStop, ht, Nat.not_lt.mpr hle]

/-- C3 witness: on the height-10 chain, a stop of `Specified(999)` — far past
the current height — is accepted and the loop runs with stop number 999
(blocking for blocks that do not exist yet). -/
theorem stop_resolution_witness :
    handleEnvelope smTest envFuture = .blocked [] := by
  have h := (stop_resolution smTest envFuture
    ⟨some ⟨some ⟨"future"⟩⟩,
      some (mkSeekInfo ⟨some (.specified 7)⟩ ⟨some (.specified 999)⟩ .BLOCK_UNTIL_READY)⟩
    ⟨some ⟨"future"⟩⟩ ⟨"future"⟩ chainFuture
    (mkSeekInfo ⟨some (.specified 7)⟩ ⟨some (.specified 999)⟩ .BLOCK_UNTIL_READY)
    ⟨some (.specified 7)⟩ ⟨some (.specified 999)⟩ [] 7
    rfl rfl rfl (by simp [smTest]) rfl rfl rfl rfl rfl).2.2 999 rfl (by norm_num)
  simpa [mkSeekInfo, deliverLoop] using h

/-! ### C4 -/

/-- C4: for every well-formed, authorized seek request whose stop position is
`Specified(n)` with `n` strictly below the resolved start number, the handler
sends a `BAD_REQUEST` status before any block is pulled or sent — the reply
list holds no block response — and the session terminates. -/
theorem backwards_range_bad_request
    (sm : SupportManager) (envelope : Envelope) (payload : Payload)
    (header : Header) (chdr : ChannelHeader) (chain : Chain) (si : SeekInfo)
    (start stop : SeekPosition) (n : Nat)
    (hp : envelope.payload? = some payload) (hh : payload.header? = some header)
    (hc : header.channelHeader? = some chdr) (hm : sm chdr.channelId = some chain)
    (ha : chain.apply envelope = .forward) (hd : payload.data? = some si)
    (hstart : si.start = some start) (hstop : si.stop = some stop)
    (ht : stop.type? = some (.specified n)) (hlt : n < (chain.iterator start).2) :
    handleEnvelope sm envelope = .sessionEnd [.status .BAD_REQUEST] ∧
    ∀ rest, Handle sm (.msg envelope :: rest) = ([.status .BAD_REQUEST], .terminated) := by
  have h := handleEnvelope_resolved sm envelope payload header chdr chain si start stop
    hp hh hc hm ha hd hstart hstop
  rw [show resolveStop stop (chain.iterator start).2 chain.height = none from by
    simp [resolveStop, ht, hlt]] at h
  exact ⟨h, fun rest => Handle_sessionEnd sm envelope _ rest h⟩

/-- C4 witness: seeking start `Specified(7)`, stop `Specified(3)` on the
height-10 chain draws `BAD_REQUEST` with no block response, and terminates. -/
theorem backwards_range_bad_request_witness :
    handleEnvelope smTest envBackwards = .sessionEnd [.status .BAD_REQUEST] ∧
    Handle smTest [.msg envBackwards, .eof] = ([.status .BAD_REQUEST], .terminated) := by
  have h := backwards_range_bad_request smTest envBackwards
    ⟨some ⟨some ⟨"future"⟩⟩,
      some (mkSeekInfo ⟨some (.specified 7)⟩ ⟨some (.specified 3)⟩ .BLOCK_UNTIL_READY)⟩
    ⟨some ⟨"future"⟩⟩ ⟨"future"⟩ chainFuture
    (mkSeekInfo ⟨some (.specified 7)⟩ ⟨some (.specified 3)⟩ .BLOCK_UNTIL_READY)
    ⟨some (.specified 7)⟩ ⟨some (.specified 3)⟩ 3
    rfl rfl rfl (by simp [smTest]) rfl rfl rfl rfl rfl (by norm_num [chainFuture, specStartNumber])
  exact ⟨h.1, h.2 [.eof]⟩

/-! ### C5 -/

/-- C5: for every well-formed, authorized seek request resolving to the range
`[s, s]` whose cursor is ready and yields block number `s` with `SUCCESS`,
the handler sends exactly one block response (block `s`) followed by exactly
one `SUCCESS` status, then returns to awaiting the next request on the same
connection. -/
theorem single_block_range
    (sm : SupportManager) (envelope : Envelope) (payload : Payload)
    (header : Header) (chdr : ChannelHeader) (chain : Chain) (si : SeekInfo)
    (start stop : SeekPosition) (events : List CursorStep) (b : Block) (s : Nat)
    (hp : envelope.payload? = some payload) (hh : payload.header? = some header)
    (hc : header.channelHeader? = some chdr) (hm : sm chdr.channelId = some chain)
    (ha : chain.apply envelope = .forward) (hd : payload.data? = some si)
    (hstart : si.start = some start) (hstop : si.stop = some stop)
    (hiter : chain.iterator start = (.yields b .SUCCESS :: events, s))
    (hres : resolveStop stop s chain.height = some s)
    (hnum : b.header.number = s) :
    handleEnvelope sm envelope = .requestDone [.block b, .status .SUCCESS] ∧
    ∀ rest, Handle sm (.msg envelope :: rest) =
      ([.block b, .status .SUCCESS] ++ (Handle sm rest).1, (Handle sm rest).2) := by
  have h := handleEnvelope_resolved sm envelope payload header chdr chain si start stop
    hp hh hc hm ha hd hstart hstop
  rw [hiter] at h
  simp only [] at h
  rw [hres] at h
  simp only [] at h
  rw [show deliverLoop si.behavior s (CursorStep.yields b Status.SUCCESS :: events) =
      .requestDone [.block b, .status .SUCCESS] from by
    simp [deliverLoop, hnum]] at h
  exact ⟨h, fun rest => Handle_requestDone sm envelope _ rest h⟩

/-- C5 witness: the single-block chain delivers its block 0 then `SUCCESS`,
and a subsequent clean close of the stream is still serviced. -/
theorem single_block_range_witness :
    handleEnvelope smTest envOne = .requestDone [.block (blk 0), .status .SUCCESS] ∧
    Handle smTest [.msg envOne, .eof] =
      ([.block (blk 0), .status .SUCCESS], .cleanClose) := by
  have h := single_block_range smTest envOne
    ⟨some ⟨some ⟨"one"⟩⟩, some (mkSeekInfo seekOldest seekOldest .BLOCK_UNTIL_READY)⟩
    ⟨some ⟨"one"⟩⟩ ⟨"one"⟩ chainOne
    (mkSeekInfo seekOldest seekOldest .BLOCK_UNTIL_READY) seekOldest seekOldest
    [] (blk 0) 0
    rfl rfl rfl (by simp [smTest]) rfl rfl rfl rfl rfl rfl rfl
  refine ⟨h.1, ?_⟩
  have h2 := h.2 [.eof]
  simpa [Handle] using h2

/-! ### C7 -/

/-- C7: within one session, responses for one serviced SeekInfo are zero or
more block responses followed by exactly one status response (first
conjunct); when the cursor yields consecutive successful blocks starting at
the resolved start `s`, the blocks delivered up to stop number `s + j` are
exactly `s, s + 1, ..., s + j` — strictly increasing with no gaps — followed
by one `SUCCESS` status (second conjunct); and all of this is sent before the
next request is read from the stream (third conjunct). -/
theorem responses_ordered_single_status :
    (∀ (beh : SeekBehavior) (stop : Nat) (cur : List CursorStep) (rs : List Response),
      deliverLoop beh stop cur = .sessionEnd rs ∨
        deliverLoop beh stop cur = .requestDone rs →
      ∃ (bs : List Block) (st : Status),
        rs = bs.map Response.block ++ [Response.status st]) ∧
    (∀ (beh : SeekBehavior) (s j k : Nat), j < k →
      deliverLoop beh (s + j) (yieldsFrom s k) =
        .requestDone ((List.range (j + 1)).map (fun i => Response.block (blk (s + i))) ++
          [Response.status .SUCCESS])) ∧
    (∀ (sm : SupportManager) (envelope : Envelope) (rs : List Response)
        (rest : List RecvEvent),
      handleEnvelope sm envelope = .requestDone rs →
      Handle sm (.msg envelope :: rest) = (rs ++ (Handle sm rest).1, (Handle sm rest).2)) := by
  refine ⟨?_, ?_, ?_⟩
  · intro beh stop cur rs h
    exact deliverLoop_shape beh stop cur rs h
  · intro beh s j k hk
    exact deliverLoop_consecutive j s k beh hk
  · intro sm envelope rs rest h
    exact Handle_requestDone sm envelope rs rest h

/-- C7 witness: a cursor yielding consecutive blocks 5, 6, 7, 8 with stop
number 7 delivers blocks 5, 6, 7 in order, then exactly one `SUCCESS`. -/
theorem responses_ordered_single_status_witness :
    deliverLoop .BLOCK_UNTIL_READY 7 (yieldsFrom 5 4) =
      .requestDone [.block (blk 5), .block (blk 6), .block (blk 7),
        .status .SUCCESS] := by
  have h := responses_ordered_single_status.2.1 .BLOCK_UNTIL_READY 5 2 4 (by norm_num)
  simpa [List.range_succ] using h

/-! ### C8 -/

/-- C8: if a SeekInfo's stop position is present but its oneof tag is unset
(none of `Oldest`, `Newest`, `Specified`), the request is not rejected as
`BAD_REQUEST`: the switch falls through leaving the stop number at its zero
value, and the cursor loop runs with stop number 0. -/
theorem unset_stop_runs_loop_with_zero
    (sm : SupportManager) (envelope : Envelope) (payload : Payload)
    (header : Header) (chdr : ChannelHeader) (chain : Chain) (si : SeekInfo)
    (start stop : SeekPosition) (events : List CursorStep) (number : Nat)
    (hp : envelope.payload? = some payload) (hh : payload.header? = some header)
    (hc : header.channelHeader? = some chdr) (hm : sm chdr.channelId = some chain)
    (ha : chain.apply envelope = .forward) (hd : payload.data? = some si)
    (hstart : si.start = some start) (hstop : si.stop = some stop)
    (hiter : chain.iterator start = (events, number)) (ht : stop.type? = none) :
    resolveStop stop number chain.height = some 0 ∧
    handleEnvelope sm envelope = deliverLoop si.behavior 0 events := by
  have h := handleEnvelope_resolved sm envelope payload header chdr chain si start stop
    hp hh hc hm ha hd hstart hstop
  rw [hiter] at h
  have hres : resolveStop stop number chain.height = some 0 := by
    simp [resolveStop, ht]
  refine ⟨hres, ?_⟩
  rw [h, hres]

/-- C8 witness: on the single-block chain, a stop position with an unset
oneof runs the loop with stop number 0, which matches block 0 immediately:
the request succeeds instead of being rejected. -/
theorem unset_stop_runs_loop_with_zero_witness :
    resolveStop ⟨none⟩ 0 1 = some 0 ∧
    handleEnvelope smTest envNoStopType =
      .requestDone [.block (blk 0), .status .SUCCESS] := by
  have h := unset_stop_runs_loop_with_zero smTest envNoStopType
    ⟨some ⟨some ⟨"one"⟩⟩, some (mkSeekInfo seekOldest ⟨none⟩ .BLOCK_UNTIL_READY)⟩
    ⟨some ⟨"one"⟩⟩ ⟨"one"⟩ chainOne
    (mkSeekInfo seekOldest ⟨none⟩ .BLOCK_UNTIL_READY) seekOldest ⟨none⟩
    [.yields (blk 0) .SUCCESS] 0
    rfl rfl rfl (by simp [smTest]) rfl rfl rfl rfl rfl rfl
  refine ⟨h.1, ?_⟩
  rw [h.2]
  simp [mkSeekInfo, deliverLoop, blk]

/-! ### C9 -/

/-- C9: if the stop position is `Newest` and the ledger's `Height()` is 0,
the stop number is `0 - 1` in unsigned 64-bit arithmetic, wrapping to
`2 ^ 64 - 1`, rather than producing an error. -/
theorem newest_at_height_zero_wraps (number : Nat) :
    resolveStop ⟨some .newest⟩ number 0 = some (2 ^ 64 - 1) := by
  norm_num [resolveStop, U64]

/-! ### C10 -/

/-- C10: the cursor loop exits normally only when the just-delivered block's
header number equals the resolved stop number — a normal exit's response list
ends with that block then `SUCCESS` (first conjunct); delivering a block
whose number differs from (in particular, exceeds) the stop number does not
end the loop (second conjunct); over an always-ready, all-`SUCCESS` cursor,
if the cursor eventually yields a block numbered exactly the stop number the
loop terminates normally (third conjunct), and if it never does, under
`BLOCK_UNTIL_READY` the loop never finishes — it is still suspended when the
whole observation window is consumed (fourth conjunct). -/
theorem loop_exits_only_at_stop :
    (∀ (beh : SeekBehavior) (stop : Nat) (cur : List CursorStep) (rs : List Response),
      deliverLoop beh stop cur = .requestDone rs →
      ∃ (pre : List Response) (b : Block),
        rs = pre ++ [.block b, .status .SUCCESS] ∧ b.header.number = stop) ∧
    (∀ (beh : SeekBehavior) (stop : Nat) (b : Block) (rest : List CursorStep),
      b.header.number ≠ stop →
      deliverLoop beh stop (.yields b .SUCCESS :: rest) =
        (deliverLoop beh stop rest).push (.block b)) ∧
    (∀ (stop : Nat) (cur : List CursorStep),
      allReadySuccess cur = true → hasStopBlock stop cur = true →
      ∀ beh, ∃ rs, deliverLoop beh stop cur = .requestDone rs) ∧
    (∀ (stop : Nat) (cur : List CursorStep),
      allReadySuccess cur = true → hasStopBlock stop cur = false →
      ∃ rs, deliverLoop .BLOCK_UNTIL_READY stop cur = .blocked rs) := by
  refine ⟨?_, ?_, ?_, ?_⟩
  · intro beh stop cur rs h
    exact requestDone_ends_at_stop beh stop cur rs h
  · intro beh stop b rest hne
    have hne' : ¬ (stop = b.header.number) := fun h => hne h.symm
    simp [deliverLoop, hne']
  · intro stop cur
    induction cur with
    | nil =>
      intro _ h2
      simp [hasStopBlock] at h2
    | cons head rest ih =>
      intro h1 h2 beh
      cases head with
      | notReady => simp [allReadySuccess] at h1
      | yields b st =>
        simp only [allReadySuccess, Bool.and_eq_true, decide_eq_true_eq] at h1
        obtain ⟨hst, h1'⟩ := h1
        subst hst
        by_cases hb : b.header.number = stop
        · exact ⟨[.block b, .status .SUCCESS], by simp [deliverLoop, hb]⟩
        · simp only [hasStopBlock, Bool.or_eq_true, decide_eq_true_eq] at h2
          rcases h2 with h2 | h2
          · exact absurd h2 hb
          · obtain ⟨rs, hrs⟩ := ih h1' h2 beh
            refine ⟨.block b :: rs, ?_⟩
            have hne : ¬ (stop = b.header.number) := fun h => hb h.symm
            simp [deliverLoop, hne, hrs, LoopResult.push]
  · intro stop cur
    induction cur with
    | nil =>
      intro _ _
      exact ⟨[], rfl⟩
    | cons head rest ih =>
      intro h1 h2
      cases head with
      | notReady => simp [allReadySuccess] at h1
      | yields b st =>
        simp only [allReadySuccess, Bool.and_eq_true, decide_eq_true_eq] at h1
        obtain ⟨hst, h1'⟩ := h1
        subst hst
        simp only [hasStopBlock, Bool.or_eq_false_iff, decide_eq_false_iff_not] at h2
        obtain ⟨hb, h2'⟩ := h2
        obtain ⟨rs, hrs⟩ := ih h1' h2'
        refine ⟨.block b :: rs, ?_⟩
        have hne : ¬ (stop = b.header.number) := fun h => hb h.symm
        simp [deliverLoop, hne, hrs, LoopResult.push]

/-- C10 witness: with stop number 5, delivering block 9 (a number past the
stop) does not end the loop — the loop continues into the rest of the
window and, with nothing further available, stays suspended. -/
theorem loop_exits_only_at_stop_witness :
    deliverLoop .BLOCK_UNTIL_READY 5 [.yields (blk 9) .SUCCESS] =
      .blocked [.block (blk 9)] := by
  have h := loop_exits_only_at_stop.2.1 .BLOCK_UNTIL_READY 5 (blk 9) [] (by decide)
  simpa [deliverLoop, LoopResult.push] using h
